import Mathlib

/-!
Verification of the interview-completion processor
(`apps/agent/processors/interview_completion_processor.py`).

The processor is an event-driven state machine: it consumes agent/user
speech-transcription events, maintains a transcript, tracks which expected
question is being asked via a word-overlap matcher over an agent-speech
accumulator, and decides completion from closing phrases, question count and
elapsed duration.  We embed the state and every handler as pure functions on
an explicit state record.

Modelling conventions:
* Python strings are Lean `String`s; `.lower()`, `.strip()` and `.split()`
  are modelled by structurally recursive functions on the character list so
  that the kernel can evaluate them (`lowerStr`, `trimStr`, `splitWordsAux`).
* Wall-clock times (`time.time()` floats) are modelled as integers (seconds);
  every comparison the code performs on times is against integer thresholds,
  so no precision is lost.  The two real-number divisions of the source
  (`match_ratio >= 0.4` and `elapsed/60 >= minimum`) are stated in the
  equivalent cross-multiplied integer form; the lemmas
  `overlapAccept_iff_div` and `sixtyScaled_iff_div` prove the equivalence
  with the rational-division form.
* The fire-and-forget Stream.io notifications are recorded in a `sentEvents`
  list (appended only when a call and agent user id are configured, mirroring
  the early return in `_send_transcript_event` / `_send_progress_event`).
* The optional completion callback is modelled by a counter of invocations
  (`callbackCalls`), incremented only when a callback is configured.
-/

/-- Boolean test that the first character list is a prefix of the second. -/
def hasPrefixCL : List Char → List Char → Bool
  | [], _ => true
  | _ :: _, [] => false
  | a :: as, b :: bs => a == b && hasPrefixCL as bs

/-- Boolean substring test on character lists (Python's `needle in haystack`). -/
def hasSubstrCL (needle : List Char) : List Char → Bool
  | [] => hasPrefixCL needle []
  | b :: bs => hasPrefixCL needle (b :: bs) || hasSubstrCL needle bs

/-- Python's `needle in haystack` on strings. -/
def containsSubstr (haystack needle : String) : Bool :=
  hasSubstrCL needle.data haystack.data

/-- Python's `str.lower()` (ASCII, which is all the code's keyword sets use). -/
def lowerStr (s : String) : String := ⟨s.data.map Char.toLower⟩

/-- Python's `str.strip()`: drop leading and trailing whitespace. -/
def trimStr (s : String) : String :=
  ⟨((s.data.dropWhile Char.isWhitespace).reverse.dropWhile Char.isWhitespace).reverse⟩

/-- Worker for `str.split()` with no separator: maximal non-whitespace runs,
empty pieces dropped.  `acc` holds the current word reversed. -/
def splitWordsAux : List Char → List Char → List String
  | [], acc => if acc.isEmpty then [] else [⟨acc.reverse⟩]
  | c :: cs, acc =>
    if c.isWhitespace then
      if acc.isEmpty then splitWordsAux cs [] else ⟨acc.reverse⟩ :: splitWordsAux cs []
    else splitWordsAux cs (c :: acc)

/-- Python's `set(text.split())`: the set of whitespace-separated words. -/
def wordSet (s : String) : Finset String := (splitWordsAux s.data []).toFinset

/-- The filler words ignored by the question matcher (source line 161). -/
def fillerWords : Finset String :=
  (["the", "a", "an", "is", "are", "was", "were", "to", "for", "and", "or", "in",
    "on", "at", "of", "your", "you", "me", "can", "could", "would", "about",
    "with"] : List String).toFinset

/-- `self.closing_keywords` (source lines 87-93). -/
def closingKeywords : List String :=
  ["goodbye", "good bye", "bye",
   "luck", "best wishes",
   "thank you for your time", "thanks for sharing",
   "we\x27ll be in touch", "be in touch",
   "that concludes", "wraps up"]

/-- One expected question: a `{text, category}` dict. -/
structure Question where
  text : String
  category : String
deriving DecidableEq, Repr

/-- Single transcript entry (dataclass `TranscriptEntry`).  The source rounds
the relative timestamp to two decimals; with integer-second times the
rounding is the identity, so the timestamp is stored exactly. -/
structure TranscriptEntry where
  speaker : String
  text : String
  timestamp : ℤ
deriving DecidableEq, Repr

/-- Why `_mark_complete` was called.  The source only interpolates the reason
into a log string; we keep the tag of the winning trigger. -/
inductive CompletionReason
  | userGoodbye
  | evaluatorCriteria
  | timeout
deriving DecidableEq, Repr

/-- An outbound Stream.io custom call event (`_send_transcript_event` /
`_send_progress_event` payloads). -/
inductive Notification
  | transcriptEvent (speaker : String) (text : String) (timestamp : ℤ)
  | progressEvent (questionIndex : Nat) (category : String) (totalQuestions : Nat)
deriving DecidableEq, Repr

/-- The mutable state of `InterviewCompletionProcessor`, plus the
construction-time configuration and the record of outbound effects. -/
structure ProcState where
  questions : List Question
  expectedQuestions : Nat
  minimumDurationMinutes : ℤ
  hasNotifier : Bool
  hasCallback : Bool
  questionsAsked : Nat
  currentQuestionIndex : Nat
  agentClosingPhrases : List String
  lastAgentSpeechTime : Option ℤ
  interviewStartTime : Option ℤ
  isComplete : Bool
  completionReason : Option CompletionReason
  callbackCalls : Nat
  transcript : List TranscriptEntry
  agentSpeechAccumulator : String
  accumulatorLastUpdate : Option ℤ
  sentEvents : List Notification
deriving DecidableEq, Repr

/-- `__init__` (source lines 54-100).  `hasNotifier` abbreviates
"`call` and `agent_user_id` are both configured"; `hasCallback` abbreviates
"`completion_callback` is not `None`". -/
def initState (questions : List Question) (minimumDurationMinutes : ℤ)
    (hasCallback hasNotifier : Bool) : ProcState where
  questions := questions
  expectedQuestions := questions.length
  minimumDurationMinutes := minimumDurationMinutes
  hasNotifier := hasNotifier
  hasCallback := hasCallback
  questionsAsked := 0
  currentQuestionIndex := 0
  agentClosingPhrases := []
  lastAgentSpeechTime := none
  interviewStartTime := none
  isComplete := false
  completionReason := none
  callbackCalls := 0
  transcript := []
  agentSpeechAccumulator := ""
  accumulatorLastUpdate := none
  sentEvents := []

/-- `setup` captures the interview start time (source line 179). -/
def setupState (now : ℤ) (s : ProcState) : ProcState :=
  { s with interviewStartTime := some now }

/-- `self.ACCUMULATOR_GAP_THRESHOLD = 2.0` seconds. -/
def ACCUMULATOR_GAP_THRESHOLD : ℤ := 2

/-- The per-question acceptance test in the loop body of
`_check_question_match` (source lines 150-173): skip if the raw word set or
the meaningful word set is empty, otherwise accept when the overlap is at
least 40%.  The source compares `len(meaningful_common) /
len(meaningful_question) >= 0.4` with real division; for a positive
denominator this is equivalent to the cross-multiplied form used here
(`overlapAccept_iff_div` below). -/
def questionOverlapAccept (accumulatedWords : Finset String) (q : Question) : Bool :=
  let questionWords := wordSet (lowerStr q.text)
  if questionWords.card = 0 then false
  else
    let commonWords := accumulatedWords ∩ questionWords
    let meaningfulCommon := commonWords \ fillerWords
    let meaningfulQuestion := questionWords \ fillerWords
    if meaningfulQuestion.card = 0 then false
    else decide (2 * meaningfulQuestion.card ≤ 5 * meaningfulCommon.card)

/-- The `for idx in range(current, len(questions))` scan of
`_check_question_match`: first accepted index, or `none`. -/
def scanQuestions (accumulatedWords : Finset String) : List Question → Nat → Option Nat
  | [], _ => none
  | q :: rest, idx =>
    if questionOverlapAccept accumulatedWords q then some idx
    else scanQuestions accumulatedWords rest (idx + 1)

/-- `_check_question_match` (source lines 140-175). -/
def checkQuestionMatch (questions : List Question) (currentQuestionIndex : Nat)
    (accumulatedText : String) : Option Nat :=
  if questions.length ≤ currentQuestionIndex then none
  else
    scanQuestions (wordSet (lowerStr accumulatedText))
      (questions.drop currentQuestionIndex) currentQuestionIndex

/-- Cross-multiplied threshold test agrees with the source's real-division
form `|mc| / |mq| ≥ 0.4` whenever the denominator is positive. -/
theorem overlapAccept_iff_div (mc mq : Nat) (hq : 0 < mq) :
    (2 * mq ≤ 5 * mc) ↔ ((0.4 : ℚ) ≤ (mc : ℚ) / (mq : ℚ)) := by
  rw [le_div_iff₀ (by exact_mod_cast hq)]
  constructor
  · intro h
    have : (2 : ℚ) * mq ≤ 5 * mc := by exact_mod_cast h
    nlinarith
  · intro h
    have : (2 : ℚ) * mq ≤ 5 * mc := by nlinarith
    exact_mod_cast this

/-- Spec-side qualification of one question, following the spec's words:
skip a question whose raw word set or meaningful word set is empty, and
accept when `|meaningfulAccumulated ∩ meaningfulQuestion| /
|meaningfulQuestion| ≥ 0.40`. -/
def specQualifies (meaningfulAccumulated : Finset String) (q : Question) : Bool :=
  let rawQuestion := wordSet (lowerStr q.text)
  let meaningfulQuestion := rawQuestion \ fillerWords
  if rawQuestion = ∅ then false
  else if meaningfulQuestion = ∅ then false
  else
    decide ((0.4 : ℚ) ≤
      ((meaningfulAccumulated ∩ meaningfulQuestion).card : ℚ) / (meaningfulQuestion.card : ℚ))

/-- Spec-side matcher, following the spec's words: scan indices forward from
`fromIndex`, never past `N-1`, and return the first qualifying index. -/
def matchQuestionSpec (questions : List Question) (fromIndex : Nat)
    (accumulatedText : String) : Option Nat :=
  (List.range' fromIndex (questions.length - fromIndex)).find? fun i =>
    match questions[i]? with
    | some q => specQualifies (wordSet (lowerStr accumulatedText) \ fillerWords) q
    | none => false

/-- `_mark_complete` (source lines 312-319): a single-set latch; the callback
fires only on the transition. -/
def markComplete (reason : CompletionReason) (s : ProcState) : ProcState :=
  if s.isComplete then s
  else
    { s with
      isComplete := true
      completionReason := some reason
      callbackCalls := if s.hasCallback then s.callbackCalls + 1 else s.callbackCalls }

/-- The elapsed seconds used by `_check_completion`:
`(time.time() - self.interview_start_time) if self.interview_start_time else 0`
(a start time of `0.0` is falsy in Python, hence the extra test). -/
def elapsedSeconds (now : ℤ) (s : ProcState) : ℤ :=
  match s.interviewStartTime with
  | some t => if t = 0 then 0 else now - t
  | none => 0

/-- `_send_transcript_event`: recorded only when a call and agent user id are
configured (source lines 104-105). -/
def sendTranscriptEvent (speaker text : String) (timestamp : ℤ) (s : ProcState) : ProcState :=
  if s.hasNotifier then
    { s with sentEvents := s.sentEvents ++ [.transcriptEvent speaker text timestamp] }
  else s

/-- `_send_progress_event` (source lines 121-138). -/
def sendProgressEvent (questionIndex : Nat) (category : String) (s : ProcState) : ProcState :=
  if s.hasNotifier then
    { s with sentEvents :=
        s.sentEvents ++ [.progressEvent questionIndex category s.expectedQuestions] }
  else s

/-- `_check_completion` (source lines 278-310).  The source compares
`duration_minutes = elapsed/60` against `minimum_duration_minutes` with real
division; `sixtyScaled_iff_div` below proves the scaled integer form used
here equivalent. -/
def checkCompletion (now : ℤ) (s : ProcState) : ProcState :=
  let hasClosingPhrase : Bool := decide (0 < s.agentClosingPhrases.length)
  let enoughQuestions : Bool :=
    decide ((s.expectedQuestions : ℤ) - 1 ≤ (s.questionsAsked : ℤ))
  let enoughTime : Bool :=
    decide (60 * s.minimumDurationMinutes ≤ elapsedSeconds now s)
  if hasClosingPhrase && (enoughQuestions || enoughTime) then
    markComplete .evaluatorCriteria s
  else s

/-- The scaled integer duration test agrees with the source's real-division
form `elapsed/60 ≥ minimum`. -/
theorem sixtyScaled_iff_div (elapsed m : ℤ) :
    (60 * m ≤ elapsed) ↔ ((m : ℚ) ≤ (elapsed : ℚ) / 60) := by
  rw [le_div_iff₀ (by norm_num : (0:ℚ) < 60)]
  constructor
  · intro h
    have : (60 : ℚ) * m ≤ elapsed := by exact_mod_cast h
    linarith
  · intro h
    have : (60 : ℚ) * m ≤ elapsed := by linarith
    exact_mod_cast this

/-- `_check_accumulator_for_question` (source lines 185-199): flush the
accumulated agent speech through the matcher, advance the cursor and the
question count on a match at or after the cursor, and clear the buffer. -/
def checkAccumulatorForQuestion (s : ProcState) : ProcState :=
  if s.agentSpeechAccumulator = "" then s
  else
    let s1 :=
      match checkQuestionMatch s.questions s.currentQuestionIndex s.agentSpeechAccumulator with
      | some matchedIdx =>
        if s.currentQuestionIndex ≤ matchedIdx then
          match s.questions[matchedIdx]? with
          | some q =>
            { sendProgressEvent matchedIdx q.category s with
              currentQuestionIndex := matchedIdx + 1
              questionsAsked := matchedIdx + 1 }
          | none => s
        else s
      | none => s
    { s1 with agentSpeechAccumulator := "" }

/-- The gap check at the top of `on_agent_speech` (source lines 209-212). -/
def gapFlush (now : ℤ) (s : ProcState) : ProcState :=
  match s.accumulatorLastUpdate with
  | some t =>
    if ACCUMULATOR_GAP_THRESHOLD < now - t then checkAccumulatorForQuestion s else s
  | none => s

/-- The `if text:` block of `on_agent_speech` (source lines 215-230):
transcript append, broadcast, and accumulation. -/
def recordAgentText (now : ℤ) (text : String) (s : ProcState) : ProcState :=
  if text = "" then s
  else
    let elapsed := now - s.interviewStartTime.getD 0
    let s1 := { s with transcript := s.transcript ++ [⟨"agent", text, elapsed⟩] }
    let s2 := sendTranscriptEvent "agent" text elapsed s1
    { s2 with
      agentSpeechAccumulator :=
        if s2.agentSpeechAccumulator = "" then text
        else s2.agentSpeechAccumulator ++ " " ++ text
      accumulatorLastUpdate := some now }

/-- The closing-phrase block of `on_agent_speech` (source lines 235-248). -/
def closingAdvance (now : ℤ) (text textLower : String) (s : ProcState) : ProcState :=
  if closingKeywords.any (fun keyword => containsSubstr textLower keyword) then
    let s1 := { s with agentClosingPhrases := s.agentClosingPhrases ++ [text] }
    let s2 :=
      if s1.currentQuestionIndex < s1.questions.length then
        match s1.questions[s1.questions.length - 1]? with
        | some lastQ =>
          { sendProgressEvent (s1.questions.length - 1) lastQ.category s1 with
            currentQuestionIndex := s1.questions.length }
        | none => s1
      else s1
    checkCompletion now s2
  else s

/-- `on_agent_speech` (source lines 202-248). -/
def onAgentSpeech (now : ℤ) (rawText : String) (s : ProcState) : ProcState :=
  let text := trimStr rawText
  let textLower := lowerStr text
  let s1 := gapFlush now s
  let s2 := recordAgentText now text s1
  let s3 := { s2 with lastAgentSpeechTime := some now }
  closingAdvance now text textLower s3

/-- `on_user_speech` (source lines 251-276). -/
def onUserSpeech (now : ℤ) (rawText : String) (s : ProcState) : ProcState :=
  let s1 := checkAccumulatorForQuestion s
  let text := trimStr rawText
  let textLower := lowerStr text
  let s2 :=
    if text ≠ "" ∧ 1 < text.length then
      let elapsed := now - s1.interviewStartTime.getD 0
      sendTranscriptEvent "user" text elapsed
        { s1 with transcript := s1.transcript ++ [⟨"user", text, elapsed⟩] }
    else s1
  if containsSubstr textLower "goodbye" || containsSubstr textLower "bye" then
    markComplete .userGoodbye s2
  else s2

/-- `wait_for_completion` (source lines 321-328): the state effect of the
wait.  `timedOut` is true when the latch was not set before the timeout
elapsed; in that case the timeout itself forces completion. -/
def waitForCompletion (timedOut : Bool) (s : ProcState) : ProcState :=
  if timedOut then markComplete .timeout s else s

/-- One inbound occurrence the processor reacts to. -/
inductive Event
  | agentSpeech (now : ℤ) (text : String)
  | userSpeech (now : ℤ) (text : String)
  | waitTimeout
deriving DecidableEq, Repr

/-- Dispatch one event to its handler. -/
def step (s : ProcState) : Event → ProcState
  | .agentSpeech now text => onAgentSpeech now text s
  | .userSpeech now text => onUserSpeech now text s
  | .waitTimeout => waitForCompletion true s

/-! ### Matcher lemmas -/

/-- Removing fillers from an intersection is intersecting the filler-free sets. -/
theorem inter_sdiff_filler (A Q F : Finset String) : (A ∩ Q) \ F = (A \ F) ∩ (Q \ F) := by
  ext a
  simp only [Finset.mem_sdiff, Finset.mem_inter]
  tauto

/-- The loop body of the source matcher agrees with the spec-worded
qualification test. -/
theorem accept_eq_specQualifies (aw : Finset String) (q : Question) :
    questionOverlapAccept aw q = specQualifies (aw \ fillerWords) q := by
  unfold questionOverlapAccept specQualifies
  by_cases h1 : wordSet (lowerStr q.text) = ∅
  · rw [if_pos (by simp [h1]), if_pos h1]
  · rw [if_neg (by simp [Finset.card_eq_zero, h1]), if_neg h1]
    by_cases h2 : wordSet (lowerStr q.text) \ fillerWords = ∅
    · rw [if_pos (by simp [h2]), if_pos h2]
    · rw [if_neg (by simp [Finset.card_eq_zero, h2]), if_neg h2]
      rw [inter_sdiff_filler]
      refine decide_eq_decide.mpr ?_
      rw [Finset.inter_comm (aw \ fillerWords)]
      exact overlapAccept_iff_div _ _
        (Nat.pos_of_ne_zero (fun hc => h2 (Finset.card_eq_zero.mp hc)))

/-- `find?` only depends on the predicate's values on the list. -/
theorem find?_congrOn {α : Type} (l : List α) (p q : α → Bool)
    (h : ∀ a ∈ l, p a = q a) : l.find? p = l.find? q := by
  induction l with
  | nil => rfl
  | cons a l ih =>
    have ha := h a (by simp)
    cases hq : q a with
    | true =>
      rw [List.find?_cons_of_pos _ (ha ▸ hq), List.find?_cons_of_pos _ hq]
    | false =>
      rw [List.find?_cons_of_neg _ (by simp [ha, hq]), List.find?_cons_of_neg _ (by simp [hq])]
      exact ih fun b hb => h b (by simp [hb])

/-- The source's forward scan is a `find?` over the index range. -/
theorem scanQuestions_eq_find? (aw : Finset String) :
    ∀ (l : List Question) (i : Nat),
      scanQuestions aw l i
        = (List.range' i l.length).find? (fun j =>
            match l[j - i]? with
            | some q => questionOverlapAccept aw q
            | none => false) := by
  intro l
  induction l with
  | nil => intro i; rfl
  | cons q rest ih =>
    intro i
    show (if questionOverlapAccept aw q then some i else scanQuestions aw rest (i + 1)) = _
    rw [List.length_cons, List.range'_succ, List.find?_cons]
    simp only [Nat.sub_self, List.getElem?_cons_zero]
    cases hacc : questionOverlapAccept aw q with
    | true => simp
    | false =>
      simp only [if_neg (by simp [hacc] : ¬ questionOverlapAccept aw q = true)]
      rw [ih (i + 1)]
      refine (find?_congrOn _ _ _ ?_).symm
      intro j hj
      have hj1 : i + 1 ≤ j := (List.mem_range'_1.mp hj).1
      have hsub : j - i = (j - (i + 1)) + 1 := by omega
      rw [hsub, List.getElem?_cons_succ]

/-- C3 core: the source matcher equals the spec-worded matcher. -/
theorem checkQuestionMatch_eq_matchSpec (questions : List Question) (fromIndex : Nat)
    (text : String) :
    checkQuestionMatch questions fromIndex text = matchQuestionSpec questions fromIndex text := by
  unfold checkQuestionMatch matchQuestionSpec
  by_cases h : questions.length ≤ fromIndex
  · rw [if_pos h, Nat.sub_eq_zero_of_le h]
    rfl
  · rw [if_neg h, scanQuestions_eq_find? _ _ _, List.length_drop]
    refine find?_congrOn _ _ _ ?_
    intro j hj
    have hj1 : fromIndex ≤ j := (List.mem_range'_1.mp hj).1
    have hd : (questions.drop fromIndex)[j - fromIndex]? = questions[j]? := by
      rw [List.getElem?_drop]
      congr 1
      omega
    rw [hd]
    cases hq : questions[j]? with
    | none => rfl
    | some q => exact accept_eq_specQualifies _ q

/-- With no accumulated words, no question is accepted. -/
theorem accept_empty (q : Question) : questionOverlapAccept ∅ q = false := by
  unfold questionOverlapAccept
  simp only [Finset.empty_inter, Finset.empty_sdiff, Finset.card_empty, Nat.mul_zero]
  split
  · rfl
  · split
    · rfl
    · next h2 => exact decide_eq_false (by omega)

/-- The scan with no accumulated words finds nothing. -/
theorem scanQuestions_empty (l : List Question) : ∀ i, scanQuestions ∅ l i = none := by
  induction l with
  | nil => intro i; rfl
  | cons q rest ih =>
    intro i
    show (if questionOverlapAccept ∅ q then some i else scanQuestions ∅ rest (i + 1)) = none
    rw [accept_empty]
    simpa using ih (i + 1)

/-- Empty accumulated text never matches. -/
theorem checkQuestionMatch_empty_text (questions : List Question) (fromIndex : Nat) :
    checkQuestionMatch questions fromIndex "" = none := by
  unfold checkQuestionMatch
  split
  · rfl
  · rw [show wordSet (lowerStr "") = ∅ by decide]
    exact scanQuestions_empty _ _

/-- A scan hit lies in the scanned index window. -/
theorem scanQuestions_some_bounds (aw : Finset String) :
    ∀ (l : List Question) (i j : Nat), scanQuestions aw l i = some j → i ≤ j ∧ j < i + l.length := by
  intro l
  induction l with
  | nil => intro i j h; exact absurd h (by simp [scanQuestions])
  | cons q rest ih =>
    intro i j h
    rw [show scanQuestions aw (q :: rest) i
        = (if questionOverlapAccept aw q then some i else scanQuestions aw rest (i + 1)) from rfl]
      at h
    split at h
    · cases h
      simp
    · have := ih (i + 1) j h
      constructor <;> [omega; (rw [List.length_cons]; omega)]

/-- A matcher hit is at or after the cursor and in range. -/
theorem checkQuestionMatch_some_bounds (questions : List Question) (fromIndex : Nat)
    (text : String) (idx : Nat) (h : checkQuestionMatch questions fromIndex text = some idx) :
    fromIndex ≤ idx ∧ idx < questions.length := by
  unfold checkQuestionMatch at h
  split at h
  · exact absurd h (by simp)
  · next hlt =>
    have := scanQuestions_some_bounds _ _ _ _ h
    rw [List.length_drop] at this
    omega

/-- A matcher hit indexes an actual question. -/
theorem checkQuestionMatch_some_get (questions : List Question) (fromIndex : Nat)
    (text : String) (idx : Nat) (h : checkQuestionMatch questions fromIndex text = some idx) :
    ∃ q, questions[idx]? = some q := by
  have hb := (checkQuestionMatch_some_bounds _ _ _ _ h).2
  exact ⟨questions[idx], List.getElem?_eq_getElem hb⟩

/-- C3: the question matcher returns the first index at or after the cursor
whose meaningful-word overlap is at least 0.40 (per `matchQuestionSpec`,
worded from the spec), skipping questions with empty raw or meaningful word
sets; it returns none on empty accumulated text, and none when the cursor is
already past the last question. -/
theorem claim3_matcher (questions : List Question) (fromIndex : Nat) (text : String) :
    checkQuestionMatch questions fromIndex text = matchQuestionSpec questions fromIndex text ∧
    checkQuestionMatch questions fromIndex "" = none ∧
    (questions.length ≤ fromIndex → checkQuestionMatch questions fromIndex text = none) := by
  refine ⟨checkQuestionMatch_eq_matchSpec _ _ _, checkQuestionMatch_empty_text _ _, ?_⟩
  intro h
  unfold checkQuestionMatch
  rw [if_pos h]

/-- Witness for C3 at a concrete input: cursor already past the single
question, so the matcher yields none. -/
theorem claim3_matcher_witness :
    checkQuestionMatch [⟨"Tell me about your experience with distributed systems", "background"⟩]
      1 "tell me about systems" = none :=
  (claim3_matcher _ 1 _).2.2 (by decide)

/-! ### Latch and evaluator lemmas -/

/-- After `_mark_complete` the latch is always set. -/
theorem markComplete_isComplete (r : CompletionReason) (s : ProcState) :
    (markComplete r s).isComplete = true := by
  unfold markComplete
  split
  · assumption
  · rfl

/-- `_mark_complete` on a set latch is a no-op. -/
theorem markComplete_of_complete (r : CompletionReason) (s : ProcState)
    (h : s.isComplete = true) : markComplete r s = s := by
  unfold markComplete
  rw [if_pos h]

/-- Any sequence of `_mark_complete` attempts on a set latch is a no-op. -/
theorem foldl_markComplete_of_complete (rs : List CompletionReason) :
    ∀ s : ProcState, s.isComplete = true →
      rs.foldl (fun st r2 => markComplete r2 st) s = s := by
  induction rs with
  | nil => intro s _; rfl
  | cons r rs ih =>
    intro s h
    show rs.foldl (fun st r2 => markComplete r2 st) (markComplete r s) = s
    rw [markComplete_of_complete r s h]
    exact ih s h

theorem markComplete_questions (r : CompletionReason) (s : ProcState) :
    (markComplete r s).questions = s.questions := by
  unfold markComplete; split <;> rfl

theorem markComplete_expected (r : CompletionReason) (s : ProcState) :
    (markComplete r s).expectedQuestions = s.expectedQuestions := by
  unfold markComplete; split <;> rfl

theorem markComplete_qa (r : CompletionReason) (s : ProcState) :
    (markComplete r s).questionsAsked = s.questionsAsked := by
  unfold markComplete; split <;> rfl

theorem markComplete_cqi (r : CompletionReason) (s : ProcState) :
    (markComplete r s).currentQuestionIndex = s.currentQuestionIndex := by
  unfold markComplete; split <;> rfl

theorem markComplete_closing (r : CompletionReason) (s : ProcState) :
    (markComplete r s).agentClosingPhrases = s.agentClosingPhrases := by
  unfold markComplete; split <;> rfl

theorem markComplete_acc (r : CompletionReason) (s : ProcState) :
    (markComplete r s).agentSpeechAccumulator = s.agentSpeechAccumulator := by
  unfold markComplete; split <;> rfl

theorem markComplete_sent (r : CompletionReason) (s : ProcState) :
    (markComplete r s).sentEvents = s.sentEvents := by
  unfold markComplete; split <;> rfl

theorem markComplete_transcript (r : CompletionReason) (s : ProcState) :
    (markComplete r s).transcript = s.transcript := by
  unfold markComplete; split <;> rfl

/-- The callback fires on the latch transition and only then. -/
theorem markComplete_callback (r : CompletionReason) (s : ProcState)
    (h : s.isComplete = false) :
    (markComplete r s).callbackCalls
      = (if s.hasCallback then s.callbackCalls + 1 else s.callbackCalls) ∧
    (markComplete r s).completionReason = some r := by
  unfold markComplete
  rw [if_neg (by simp [h])]
  exact ⟨rfl, rfl⟩

theorem checkCompletion_qa (now : ℤ) (s : ProcState) :
    (checkCompletion now s).questionsAsked = s.questionsAsked := by
  unfold checkCompletion
  dsimp only
  split
  · exact markComplete_qa _ _
  · rfl

theorem checkCompletion_cqi (now : ℤ) (s : ProcState) :
    (checkCompletion now s).currentQuestionIndex = s.currentQuestionIndex := by
  unfold checkCompletion
  dsimp only
  split
  · exact markComplete_cqi _ _
  · rfl

theorem checkCompletion_questions (now : ℤ) (s : ProcState) :
    (checkCompletion now s).questions = s.questions := by
  unfold checkCompletion
  dsimp only
  split
  · exact markComplete_questions _ _
  · rfl

theorem checkCompletion_closing (now : ℤ) (s : ProcState) :
    (checkCompletion now s).agentClosingPhrases = s.agentClosingPhrases := by
  unfold checkCompletion
  dsimp only
  split
  · exact markComplete_closing _ _
  · rfl

theorem checkCompletion_acc (now : ℤ) (s : ProcState) :
    (checkCompletion now s).agentSpeechAccumulator = s.agentSpeechAccumulator := by
  unfold checkCompletion
  dsimp only
  split
  · exact markComplete_acc _ _
  · rfl

theorem checkCompletion_sent (now : ℤ) (s : ProcState) :
    (checkCompletion now s).sentEvents = s.sentEvents := by
  unfold checkCompletion
  dsimp only
  split
  · exact markComplete_sent _ _
  · rfl

/-- C1: the completion latch transitions false to true at most once.  The
first `_mark_complete` call sets the latch and fires the optional callback
exactly once; every sequence of later calls (any reasons, any multiplicity)
leaves the state exactly as after the first call, and a call on a set latch
is a no-op. -/
theorem claim1_latch :
    (∀ (s : ProcState) (r : CompletionReason) (rs : List CompletionReason),
        s.isComplete = false →
        (markComplete r s).isComplete = true ∧
        (markComplete r s).callbackCalls
          = (if s.hasCallback then s.callbackCalls + 1 else s.callbackCalls) ∧
        rs.foldl (fun st r2 => markComplete r2 st) (markComplete r s) = markComplete r s) ∧
    (∀ (s : ProcState) (r : CompletionReason),
        s.isComplete = true → markComplete r s = s) := by
  refine ⟨fun s r rs h => ⟨markComplete_isComplete r s, (markComplete_callback r s h).1, ?_⟩,
    fun s r h => markComplete_of_complete r s h⟩
  exact foldl_markComplete_of_complete rs _ (markComplete_isComplete r s)

/-- Witness for C1: a timeout trigger followed by a user-goodbye trigger and
an evaluator trigger changes the state only once. -/
theorem claim1_latch_witness :
    ([CompletionReason.userGoodbye, CompletionReason.evaluatorCriteria].foldl
        (fun st r2 => markComplete r2 st)
        (markComplete CompletionReason.timeout (initState [] 8 true true)))
      = markComplete CompletionReason.timeout (initState [] 8 true true) :=
  (claim1_latch.1 (initState [] 8 true true) CompletionReason.timeout
    [CompletionReason.userGoodbye, CompletionReason.evaluatorCriteria] rfl).2.2

/-- C2: `_check_completion` newly marks the conversation complete exactly
when a closing phrase has been seen and (enough questions or enough time);
when the criteria fail it leaves the state untouched.  The duration test
`60·minimum ≤ now - t` is the source's `elapsed/60 ≥ minimum` in
integer-scaled form (`sixtyScaled_iff_div`). -/
theorem claim2_evaluator (now : ℤ) (s : ProcState) (t : ℤ)
    (hs : s.interviewStartTime = some t) (ht : t ≠ 0) :
    (((checkCompletion now s).isComplete = true) ↔
      (s.isComplete = true ∨
        (0 < s.agentClosingPhrases.length ∧
          ((s.expectedQuestions : ℤ) - 1 ≤ (s.questionsAsked : ℤ) ∨
            60 * s.minimumDurationMinutes ≤ now - t)))) ∧
    (¬ (0 < s.agentClosingPhrases.length ∧
          ((s.expectedQuestions : ℤ) - 1 ≤ (s.questionsAsked : ℤ) ∨
            60 * s.minimumDurationMinutes ≤ now - t)) →
      checkCompletion now s = s) := by
  have helapsed : elapsedSeconds now s = now - t := by
    unfold elapsedSeconds
    rw [hs]
    exact if_neg ht
  unfold checkCompletion
  dsimp only
  rw [helapsed]
  by_cases hc : (0 < s.agentClosingPhrases.length ∧
      ((s.expectedQuestions : ℤ) - 1 ≤ (s.questionsAsked : ℤ) ∨
        60 * s.minimumDurationMinutes ≤ now - t))
  · have hcond : (decide (0 < s.agentClosingPhrases.length) &&
        (decide ((s.expectedQuestions : ℤ) - 1 ≤ (s.questionsAsked : ℤ)) ||
          decide (60 * s.minimumDurationMinutes ≤ now - t))) = true := by
      rw [decide_eq_true hc.1]
      rcases hc.2 with h | h
      · rw [decide_eq_true h]
        rfl
      · rw [decide_eq_true h]
        cases decide ((s.expectedQuestions : ℤ) - 1 ≤ (s.questionsAsked : ℤ)) <;> rfl
    rw [if_pos hcond]
    exact ⟨iff_of_true (markComplete_isComplete _ _) (Or.inr hc), fun hnc => absurd hc hnc⟩
  · have hcond : (decide (0 < s.agentClosingPhrases.length) &&
        (decide ((s.expectedQuestions : ℤ) - 1 ≤ (s.questionsAsked : ℤ)) ||
          decide (60 * s.minimumDurationMinutes ≤ now - t))) = false := by
      by_cases hA : 0 < s.agentClosingPhrases.length
      · have hB : ¬ ((s.expectedQuestions : ℤ) - 1 ≤ (s.questionsAsked : ℤ)) :=
          fun hb => hc ⟨hA, Or.inl hb⟩
        have hC : ¬ (60 * s.minimumDurationMinutes ≤ now - t) :=
          fun hcc => hc ⟨hA, Or.inr hcc⟩
        rw [decide_eq_false hB, decide_eq_false hC]
        cases decide (0 < s.agentClosingPhrases.length) <;> rfl
      · rw [decide_eq_false hA]
        rfl
    rw [if_neg (by rw [hcond]; exact Bool.false_ne_true)]
    exact ⟨⟨Or.inl, fun h => h.elim id fun hp => absurd hp hc⟩, fun _ => rfl⟩

/-- Concrete state for the C2 witness: closing phrase seen, zero of three
questions asked, one minute elapsed of the eight required. -/
def evaluatorWitnessState : ProcState :=
  { initState [⟨"q one", "a"⟩, ⟨"q two", "b"⟩, ⟨"q three", "c"⟩] 8 true true with
    interviewStartTime := some 100
    agentClosingPhrases := ["thanks for sharing"] }

/-- Witness for C2: with a closing phrase but neither enough questions nor
enough time, `_check_completion` leaves the state untouched. -/
theorem claim2_evaluator_witness :
    checkCompletion 160 evaluatorWitnessState = evaluatorWitnessState :=
  (claim2_evaluator 160 evaluatorWitnessState 100 rfl (by decide)).2 (by decide)

/-! ### Accumulator-flush lemmas -/

/-- An empty buffer makes the flush a no-op (the early return at source
line 187). -/
theorem checkAcc_of_empty (s : ProcState) (h : s.agentSpeechAccumulator = "") :
    checkAccumulatorForQuestion s = s := by
  unfold checkAccumulatorForQuestion
  rw [if_pos h]

theorem checkAcc_questions (s : ProcState) :
    (checkAccumulatorForQuestion s).questions = s.questions := by
  unfold checkAccumulatorForQuestion sendProgressEvent
  repeat' split
  all_goals rfl

theorem checkAcc_closing (s : ProcState) :
    (checkAccumulatorForQuestion s).agentClosingPhrases = s.agentClosingPhrases := by
  unfold checkAccumulatorForQuestion sendProgressEvent
  repeat' split
  all_goals rfl

theorem checkAcc_transcript (s : ProcState) :
    (checkAccumulatorForQuestion s).transcript = s.transcript := by
  unfold checkAccumulatorForQuestion sendProgressEvent
  repeat' split
  all_goals rfl

theorem checkAcc_isComplete (s : ProcState) :
    (checkAccumulatorForQuestion s).isComplete = s.isComplete := by
  unfold checkAccumulatorForQuestion sendProgressEvent
  repeat' split
  all_goals rfl

theorem checkAcc_expected (s : ProcState) :
    (checkAccumulatorForQuestion s).expectedQuestions = s.expectedQuestions := by
  unfold checkAccumulatorForQuestion sendProgressEvent
  repeat' split
  all_goals rfl

theorem checkAcc_hasNotifier (s : ProcState) :
    (checkAccumulatorForQuestion s).hasNotifier = s.hasNotifier := by
  unfold checkAccumulatorForQuestion sendProgressEvent
  repeat' split
  all_goals rfl

theorem checkAcc_interviewStartTime (s : ProcState) :
    (checkAccumulatorForQuestion s).interviewStartTime = s.interviewStartTime := by
  unfold checkAccumulatorForQuestion sendProgressEvent
  repeat' split
  all_goals rfl

/-- The flush clears the buffer whenever the buffer was non-empty. -/
theorem checkAcc_acc (s : ProcState) (h : s.agentSpeechAccumulator ≠ "") :
    (checkAccumulatorForQuestion s).agentSpeechAccumulator = "" := by
  unfold checkAccumulatorForQuestion
  rw [if_neg h]

/-- The cursor never moves backward in a flush. -/
theorem checkAcc_cqi_mono (s : ProcState) :
    s.currentQuestionIndex ≤ (checkAccumulatorForQuestion s).currentQuestionIndex := by
  unfold checkAccumulatorForQuestion sendProgressEvent
  repeat' split
  all_goals simp_all
  all_goals omega

/-- A flush with a matcher hit advances cursor and question count to
`matchedIdx + 1` and (with a notifier) emits the progress event. -/
theorem checkAcc_flush_match (s : ProcState) (idx : Nat)
    (h : checkQuestionMatch s.questions s.currentQuestionIndex s.agentSpeechAccumulator
        = some idx) :
    (checkAccumulatorForQuestion s).questionsAsked = idx + 1 ∧
    (checkAccumulatorForQuestion s).currentQuestionIndex = idx + 1 ∧
    (s.hasNotifier = true →
      ∃ q, s.questions[idx]? = some q ∧
        Notification.progressEvent idx q.category s.expectedQuestions
          ∈ (checkAccumulatorForQuestion s).sentEvents) := by
  have hne : s.agentSpeechAccumulator ≠ "" := fun he => by
    rw [he, checkQuestionMatch_empty_text] at h
    exact Option.noConfusion h
  have hb := checkQuestionMatch_some_bounds _ _ _ _ h
  obtain ⟨q, hq⟩ := checkQuestionMatch_some_get _ _ _ _ h
  unfold checkAccumulatorForQuestion
  rw [if_neg hne]
  dsimp only
  rw [h]
  dsimp only
  rw [if_pos hb.1, hq]
  dsimp only
  refine ⟨rfl, rfl, fun hn => ⟨q, rfl, ?_⟩⟩
  unfold sendProgressEvent
  rw [if_pos hn]
  simp

/-- A flush with no matcher hit changes neither counters nor notifications. -/
theorem checkAcc_flush_none (s : ProcState)
    (h : checkQuestionMatch s.questions s.currentQuestionIndex s.agentSpeechAccumulator
        = none) :
    (checkAccumulatorForQuestion s).currentQuestionIndex = s.currentQuestionIndex ∧
    (checkAccumulatorForQuestion s).questionsAsked = s.questionsAsked ∧
    (checkAccumulatorForQuestion s).sentEvents = s.sentEvents := by
  unfold checkAccumulatorForQuestion
  split
  · exact ⟨rfl, rfl, rfl⟩
  · dsimp only
    rw [h]
    exact ⟨rfl, rfl, rfl⟩

/-- The question count never moves backward in a flush, given the
count-below-cursor invariant. -/
theorem checkAcc_qa_mono (s : ProcState)
    (hinv : s.questionsAsked ≤ s.currentQuestionIndex) :
    s.questionsAsked ≤ (checkAccumulatorForQuestion s).questionsAsked := by
  cases hm : checkQuestionMatch s.questions s.currentQuestionIndex s.agentSpeechAccumulator with
  | none => rw [(checkAcc_flush_none s hm).2.1]
  | some idx =>
    rw [(checkAcc_flush_match s idx hm).1]
    have := (checkQuestionMatch_some_bounds _ _ _ _ hm).1
    omega

/-- A flush preserves the count-below-cursor invariant. -/
theorem checkAcc_inv (s : ProcState)
    (hinv : s.questionsAsked ≤ s.currentQuestionIndex) :
    (checkAccumulatorForQuestion s).questionsAsked
      ≤ (checkAccumulatorForQuestion s).currentQuestionIndex := by
  cases hm : checkQuestionMatch s.questions s.currentQuestionIndex s.agentSpeechAccumulator with
  | none => rw [(checkAcc_flush_none s hm).2.1, (checkAcc_flush_none s hm).1]; exact hinv
  | some idx => rw [(checkAcc_flush_match s idx hm).1, (checkAcc_flush_match s idx hm).2.1]

/-- A flush keeps the cursor within the question list bound. -/
theorem checkAcc_cqi_le_len (s : ProcState)
    (hle : s.currentQuestionIndex ≤ s.questions.length) :
    (checkAccumulatorForQuestion s).currentQuestionIndex ≤ s.questions.length := by
  cases hm : checkQuestionMatch s.questions s.currentQuestionIndex s.agentSpeechAccumulator with
  | none => rw [(checkAcc_flush_none s hm).1]; exact hle
  | some idx =>
    rw [(checkAcc_flush_match s idx hm).2.1]
    have := (checkQuestionMatch_some_bounds _ _ _ _ hm).2
    omega

/-! ### Gap-flush and agent-text lemmas -/

theorem gapFlush_of_empty (now : ℤ) (s : ProcState) (h : s.agentSpeechAccumulator = "") :
    gapFlush now s = s := by
  unfold gapFlush
  split
  · split
    · exact checkAcc_of_empty s h
    · rfl
  · rfl

theorem gapFlush_no_gap (now : ℤ) (s : ProcState) (t : ℤ)
    (h : s.accumulatorLastUpdate = some t) (hle : now - t ≤ ACCUMULATOR_GAP_THRESHOLD) :
    gapFlush now s = s := by
  unfold gapFlush
  rw [h]
  exact if_neg (not_lt.mpr hle)

theorem gapFlush_gap (now : ℤ) (s : ProcState) (t : ℤ)
    (h : s.accumulatorLastUpdate = some t) (hgt : ACCUMULATOR_GAP_THRESHOLD < now - t) :
    gapFlush now s = checkAccumulatorForQuestion s := by
  unfold gapFlush
  rw [h]
  exact if_pos hgt

theorem sendTranscript_isComplete (sp tx : String) (ts : ℤ) (s : ProcState) :
    (sendTranscriptEvent sp tx ts s).isComplete = s.isComplete := by
  unfold sendTranscriptEvent; split <;> rfl

theorem sendTranscript_acc (sp tx : String) (ts : ℤ) (s : ProcState) :
    (sendTranscriptEvent sp tx ts s).agentSpeechAccumulator = s.agentSpeechAccumulator := by
  unfold sendTranscriptEvent; split <;> rfl

theorem recordAgentText_of_empty (now : ℤ) (s : ProcState) :
    recordAgentText now "" s = s := by
  unfold recordAgentText
  rw [if_pos rfl]

theorem recordAgentText_cqi (now : ℤ) (text : String) (s : ProcState) :
    (recordAgentText now text s).currentQuestionIndex = s.currentQuestionIndex := by
  unfold recordAgentText sendTranscriptEvent
  dsimp only
  repeat' split
  all_goals rfl

theorem recordAgentText_qa (now : ℤ) (text : String) (s : ProcState) :
    (recordAgentText now text s).questionsAsked = s.questionsAsked := by
  unfold recordAgentText sendTranscriptEvent
  dsimp only
  repeat' split
  all_goals rfl

theorem recordAgentText_questions (now : ℤ) (text : String) (s : ProcState) :
    (recordAgentText now text s).questions = s.questions := by
  unfold recordAgentText sendTranscriptEvent
  dsimp only
  repeat' split
  all_goals rfl

theorem recordAgentText_closing (now : ℤ) (text : String) (s : ProcState) :
    (recordAgentText now text s).agentClosingPhrases = s.agentClosingPhrases := by
  unfold recordAgentText sendTranscriptEvent
  dsimp only
  repeat' split
  all_goals rfl

theorem recordAgentText_expected (now : ℤ) (text : String) (s : ProcState) :
    (recordAgentText now text s).expectedQuestions = s.expectedQuestions := by
  unfold recordAgentText sendTranscriptEvent
  dsimp only
  repeat' split
  all_goals rfl

theorem recordAgentText_hasNotifier (now : ℤ) (text : String) (s : ProcState) :
    (recordAgentText now text s).hasNotifier = s.hasNotifier := by
  unfold recordAgentText sendTranscriptEvent
  dsimp only
  repeat' split
  all_goals rfl

/-- A non-empty fragment is concatenated onto the buffer (source
lines 226-229). -/
theorem recordAgentText_acc (now : ℤ) (text : String) (s : ProcState) (h : text ≠ "") :
    (recordAgentText now text s).agentSpeechAccumulator
      = (if s.agentSpeechAccumulator = "" then text
          else s.agentSpeechAccumulator ++ " " ++ text) := by
  unfold recordAgentText
  rw [if_neg h]
  dsimp only
  rw [sendTranscript_acc]

/-! ### Closing-phrase lemmas -/

theorem closingAdvance_not (now : ℤ) (text textLower : String) (s : ProcState)
    (h : closingKeywords.any (fun keyword => containsSubstr textLower keyword) = false) :
    closingAdvance now text textLower s = s := by
  unfold closingAdvance
  rw [if_neg (by rw [h]; exact Bool.false_ne_true)]

/-- A recognized closing phrase appends the utterance to the closing list
(source line 236). -/
theorem closingAdvance_closing (now : ℤ) (text textLower : String) (s : ProcState)
    (h : closingKeywords.any (fun keyword => containsSubstr textLower keyword) = true) :
    (closingAdvance now text textLower s).agentClosingPhrases
      = s.agentClosingPhrases ++ [text] := by
  unfold closingAdvance
  rw [if_pos h]
  dsimp only
  rw [checkCompletion_closing]
  unfold sendProgressEvent
  repeat' split
  all_goals rfl

theorem closingAdvance_qa (now : ℤ) (text textLower : String) (s : ProcState) :
    (closingAdvance now text textLower s).questionsAsked = s.questionsAsked := by
  unfold closingAdvance
  split
  · dsimp only
    rw [checkCompletion_qa]
    unfold sendProgressEvent
    repeat' split
    all_goals rfl
  · rfl

theorem closingAdvance_acc (now : ℤ) (text textLower : String) (s : ProcState) :
    (closingAdvance now text textLower s).agentSpeechAccumulator
      = s.agentSpeechAccumulator := by
  unfold closingAdvance
  split
  · dsimp only
    rw [checkCompletion_acc]
    unfold sendProgressEvent
    repeat' split
    all_goals rfl
  · rfl

/-- A closing phrase with the cursor not yet past the last question forces
the cursor to the question count (source line 244). -/
theorem closingAdvance_cqi_of_lt (now : ℤ) (text textLower : String) (s : ProcState)
    (h : closingKeywords.any (fun keyword => containsSubstr textLower keyword) = true)
    (hlt : s.currentQuestionIndex < s.questions.length) :
    (closingAdvance now text textLower s).currentQuestionIndex = s.questions.length := by
  unfold closingAdvance
  rw [if_pos h]
  dsimp only
  rw [checkCompletion_cqi]
  rw [if_pos hlt]
  have hq : s.questions[s.questions.length - 1]? = some (s.questions[s.questions.length - 1]) :=
    List.getElem?_eq_getElem (by omega)
  rw [hq]

theorem closingAdvance_cqi_of_ge (now : ℤ) (text textLower : String) (s : ProcState)
    (h : closingKeywords.any (fun keyword => containsSubstr textLower keyword) = true)
    (hge : ¬ s.currentQuestionIndex < s.questions.length) :
    (closingAdvance now text textLower s).currentQuestionIndex = s.currentQuestionIndex := by
  unfold closingAdvance
  rw [if_pos h]
  dsimp only
  rw [checkCompletion_cqi]
  rw [if_neg hge]

theorem closingAdvance_cqi_mono (now : ℤ) (text textLower : String) (s : ProcState) :
    s.currentQuestionIndex ≤ (closingAdvance now text textLower s).currentQuestionIndex := by
  cases hk : closingKeywords.any (fun keyword => containsSubstr textLower keyword) with
  | false => rw [closingAdvance_not now text textLower s hk]
  | true =>
    by_cases hlt : s.currentQuestionIndex < s.questions.length
    · rw [closingAdvance_cqi_of_lt now text textLower s hk hlt]
      omega
    · rw [closingAdvance_cqi_of_ge now text textLower s hk hlt]

/-- The closing-phrase force-advance emits the progress notification for the
last question. -/
theorem closingAdvance_sent_progress (now : ℤ) (text textLower : String) (s : ProcState)
    (h : closingKeywords.any (fun keyword => containsSubstr textLower keyword) = true)
    (hlt : s.currentQuestionIndex < s.questions.length)
    (hn : s.hasNotifier = true) :
    ∃ q, s.questions[s.questions.length - 1]? = some q ∧
      Notification.progressEvent (s.questions.length - 1) q.category s.expectedQuestions
        ∈ (closingAdvance now text textLower s).sentEvents := by
  unfold closingAdvance
  rw [if_pos h]
  dsimp only
  rw [checkCompletion_sent]
  rw [if_pos hlt]
  have hq : s.questions[s.questions.length - 1]? = some (s.questions[s.questions.length - 1]) :=
    List.getElem?_eq_getElem (by omega)
  rw [hq]
  dsimp only
  refine ⟨s.questions[s.questions.length - 1], rfl, ?_⟩
  unfold sendProgressEvent
  rw [if_pos hn]
  simp

/-! ### Projections through the `lastAgentSpeechTime` update in `on_agent_speech` -/

theorem updLast_qa (u : ProcState) (n : Option ℤ) :
    ({ u with lastAgentSpeechTime := n }).questionsAsked = u.questionsAsked := rfl

theorem updLast_cqi (u : ProcState) (n : Option ℤ) :
    ({ u with lastAgentSpeechTime := n }).currentQuestionIndex = u.currentQuestionIndex := rfl

theorem updLast_questions (u : ProcState) (n : Option ℤ) :
    ({ u with lastAgentSpeechTime := n }).questions = u.questions := rfl

theorem updLast_closing (u : ProcState) (n : Option ℤ) :
    ({ u with lastAgentSpeechTime := n }).agentClosingPhrases = u.agentClosingPhrases := rfl

theorem updLast_acc (u : ProcState) (n : Option ℤ) :
    ({ u with lastAgentSpeechTime := n }).agentSpeechAccumulator
      = u.agentSpeechAccumulator := rfl

theorem updLast_hasNotifier (u : ProcState) (n : Option ℤ) :
    ({ u with lastAgentSpeechTime := n }).hasNotifier = u.hasNotifier := rfl

theorem updLast_expected (u : ProcState) (n : Option ℤ) :
    ({ u with lastAgentSpeechTime := n }).expectedQuestions = u.expectedQuestions := rfl

/-- `on_agent_speech` unfolded to its three phases. -/
theorem onAgentSpeech_eq (now : ℤ) (rawText : String) (s : ProcState) :
    onAgentSpeech now rawText s
      = closingAdvance now (trimStr rawText) (lowerStr (trimStr rawText))
          { recordAgentText now (trimStr rawText) (gapFlush now s) with
            lastAgentSpeechTime := some now } := rfl

/-! ### More gap-flush field lemmas -/

theorem gapFlush_questions (now : ℤ) (s : ProcState) :
    (gapFlush now s).questions = s.questions := by
  unfold gapFlush
  split
  · split
    · exact checkAcc_questions s
    · rfl
  · rfl

theorem gapFlush_closing (now : ℤ) (s : ProcState) :
    (gapFlush now s).agentClosingPhrases = s.agentClosingPhrases := by
  unfold gapFlush
  split
  · split
    · exact checkAcc_closing s
    · rfl
  · rfl

theorem gapFlush_hasNotifier (now : ℤ) (s : ProcState) :
    (gapFlush now s).hasNotifier = s.hasNotifier := by
  unfold gapFlush
  split
  · split
    · exact checkAcc_hasNotifier s
    · rfl
  · rfl

theorem gapFlush_expected (now : ℤ) (s : ProcState) :
    (gapFlush now s).expectedQuestions = s.expectedQuestions := by
  unfold gapFlush
  split
  · split
    · exact checkAcc_expected s
    · rfl
  · rfl

theorem gapFlush_cqi_mono (now : ℤ) (s : ProcState) :
    s.currentQuestionIndex ≤ (gapFlush now s).currentQuestionIndex := by
  unfold gapFlush
  split
  · split
    · exact checkAcc_cqi_mono s
    · exact le_refl _
  · exact le_refl _

theorem gapFlush_qa_mono (now : ℤ) (s : ProcState)
    (hinv : s.questionsAsked ≤ s.currentQuestionIndex) :
    s.questionsAsked ≤ (gapFlush now s).questionsAsked := by
  unfold gapFlush
  split
  · split
    · exact checkAcc_qa_mono s hinv
    · exact le_refl _
  · exact le_refl _

theorem gapFlush_inv (now : ℤ) (s : ProcState)
    (hinv : s.questionsAsked ≤ s.currentQuestionIndex) :
    (gapFlush now s).questionsAsked ≤ (gapFlush now s).currentQuestionIndex := by
  unfold gapFlush
  split
  · split
    · exact checkAcc_inv s hinv
    · exact hinv
  · exact hinv

theorem gapFlush_cqi_le_len (now : ℤ) (s : ProcState)
    (hle : s.currentQuestionIndex ≤ s.questions.length) :
    (gapFlush now s).currentQuestionIndex ≤ s.questions.length := by
  unfold gapFlush
  split
  · split
    · exact checkAcc_cqi_le_len s hle
    · exact hle
  · exact hle

/-! ### Handler-level counter lemmas -/

/-- `on_agent_speech` never moves the counters backward and preserves the
count-below-cursor invariant. -/
theorem onAgentSpeech_counters (now : ℤ) (rawText : String) (s : ProcState)
    (hinv : s.questionsAsked ≤ s.currentQuestionIndex) :
    s.currentQuestionIndex ≤ (onAgentSpeech now rawText s).currentQuestionIndex ∧
    s.questionsAsked ≤ (onAgentSpeech now rawText s).questionsAsked ∧
    (onAgentSpeech now rawText s).questionsAsked
      ≤ (onAgentSpeech now rawText s).currentQuestionIndex := by
  rw [onAgentSpeech_eq]
  have h2c := recordAgentText_cqi now (trimStr rawText) (gapFlush now s)
  have h2q := recordAgentText_qa now (trimStr rawText) (gapFlush now s)
  have h3c := closingAdvance_cqi_mono now (trimStr rawText) (lowerStr (trimStr rawText))
    { recordAgentText now (trimStr rawText) (gapFlush now s) with
      lastAgentSpeechTime := some now }
  have h3q := closingAdvance_qa now (trimStr rawText) (lowerStr (trimStr rawText))
    { recordAgentText now (trimStr rawText) (gapFlush now s) with
      lastAgentSpeechTime := some now }
  rw [updLast_cqi, h2c] at h3c
  rw [updLast_qa, h2q] at h3q
  refine ⟨le_trans (gapFlush_cqi_mono now s) h3c, ?_, ?_⟩
  · rw [h3q]
    exact gapFlush_qa_mono now s hinv
  · rw [h3q]
    exact le_trans (gapFlush_inv now s hinv) h3c

theorem gapFlush_none (now : ℤ) (s : ProcState) (h : s.accumulatorLastUpdate = none) :
    gapFlush now s = s := by
  unfold gapFlush
  rw [h]

theorem sendTranscript_cqi (sp tx : String) (ts : ℤ) (s : ProcState) :
    (sendTranscriptEvent sp tx ts s).currentQuestionIndex = s.currentQuestionIndex := by
  unfold sendTranscriptEvent; split <;> rfl

theorem sendTranscript_qa (sp tx : String) (ts : ℤ) (s : ProcState) :
    (sendTranscriptEvent sp tx ts s).questionsAsked = s.questionsAsked := by
  unfold sendTranscriptEvent; split <;> rfl

/-- `on_user_speech` never moves the counters backward and preserves the
count-below-cursor invariant. -/
theorem onUserSpeech_counters (now : ℤ) (rawText : String) (s : ProcState)
    (hinv : s.questionsAsked ≤ s.currentQuestionIndex) :
    s.currentQuestionIndex ≤ (onUserSpeech now rawText s).currentQuestionIndex ∧
    s.questionsAsked ≤ (onUserSpeech now rawText s).questionsAsked ∧
    (onUserSpeech now rawText s).questionsAsked
      ≤ (onUserSpeech now rawText s).currentQuestionIndex := by
  have h1c := checkAcc_cqi_mono s
  have h1q := checkAcc_qa_mono s hinv
  have h1i := checkAcc_inv s hinv
  unfold onUserSpeech
  dsimp only
  repeat' split
  all_goals
    try simp only [markComplete_qa, markComplete_cqi, sendTranscript_cqi, sendTranscript_qa]
  all_goals exact ⟨h1c, h1q, h1i⟩

/-- One event never moves the counters backward and preserves the
count-below-cursor invariant. -/
theorem step_counters (s : ProcState) (e : Event)
    (hinv : s.questionsAsked ≤ s.currentQuestionIndex) :
    s.currentQuestionIndex ≤ (step s e).currentQuestionIndex ∧
    s.questionsAsked ≤ (step s e).questionsAsked ∧
    (step s e).questionsAsked ≤ (step s e).currentQuestionIndex := by
  cases e with
  | agentSpeech now text => exact onAgentSpeech_counters now text s hinv
  | userSpeech now text => exact onUserSpeech_counters now text s hinv
  | waitTimeout =>
    have h : step s Event.waitTimeout = markComplete CompletionReason.timeout s := by
      show waitForCompletion true s = _
      unfold waitForCompletion
      rw [if_pos rfl]
    rw [h, markComplete_qa, markComplete_cqi]
    exact ⟨le_refl _, le_refl _, hinv⟩

/-- Counter monotonicity extends along any event sequence. -/
theorem foldl_step_counters (events : List Event) :
    ∀ (s : ProcState), s.questionsAsked ≤ s.currentQuestionIndex →
      s.currentQuestionIndex ≤ (events.foldl step s).currentQuestionIndex ∧
      s.questionsAsked ≤ (events.foldl step s).questionsAsked ∧
      (events.foldl step s).questionsAsked ≤ (events.foldl step s).currentQuestionIndex := by
  induction events with
  | nil => intro s hinv; exact ⟨le_refl _, le_refl _, hinv⟩
  | cons e es ih =>
    intro s hinv
    have h1 := step_counters s e hinv
    have h2 := ih (step s e) h1.2.2
    exact ⟨le_trans h1.1 h2.1, le_trans h1.2.1 h2.2.1, h2.2.2⟩

/-- C4: from construction, `currentQuestionIndex` and `questionsAsked` are
monotonically non-decreasing: both start at zero, and no handler (gap flush,
turn-change flush, closing-phrase force-advance, timeout) ever assigns either
field a smaller value, across any sequence of events. -/
theorem claim4_monotone :
    (∀ (questions : List Question) (m : ℤ) (hc hn : Bool),
        (initState questions m hc hn).questionsAsked = 0 ∧
        (initState questions m hc hn).currentQuestionIndex = 0) ∧
    (∀ (s : ProcState) (e : Event),
        s.questionsAsked ≤ s.currentQuestionIndex →
        s.currentQuestionIndex ≤ (step s e).currentQuestionIndex ∧
        s.questionsAsked ≤ (step s e).questionsAsked) ∧
    (∀ (s : ProcState) (events : List Event),
        s.questionsAsked ≤ s.currentQuestionIndex →
        s.currentQuestionIndex ≤ (events.foldl step s).currentQuestionIndex ∧
        s.questionsAsked ≤ (events.foldl step s).questionsAsked) := by
  refine ⟨fun _ _ _ _ => ⟨rfl, rfl⟩, fun s e hinv => ?_, fun s events hinv => ?_⟩
  · exact ⟨(step_counters s e hinv).1, (step_counters s e hinv).2.1⟩
  · exact ⟨(foldl_step_counters events s hinv).1, (foldl_step_counters events s hinv).2.1⟩

/-- Concrete state and trace for the C4 witness. -/
def monotoneWitnessState : ProcState :=
  { initState [⟨"tell me about your experience with distributed systems", "background"⟩] 8
      true true with
    interviewStartTime := some 0
    agentSpeechAccumulator := "so tell me about your experience with systems"
    accumulatorLastUpdate := some 10 }

/-- Witness for C4: across a gap flush followed by a user turn, the counters
never decrease. -/
theorem claim4_monotone_witness :
    monotoneWitnessState.currentQuestionIndex
        ≤ (([Event.agentSpeech 20 "And what was the result?", Event.userSpeech 25 "It worked well."].foldl
            step monotoneWitnessState)).currentQuestionIndex ∧
    monotoneWitnessState.questionsAsked
        ≤ (([Event.agentSpeech 20 "And what was the result?", Event.userSpeech 25 "It worked well."].foldl
            step monotoneWitnessState)).questionsAsked :=
  claim4_monotone.2.2 monotoneWitnessState
    [Event.agentSpeech 20 "And what was the result?", Event.userSpeech 25 "It worked well."]
    (by decide)

/-- C10: `questionsAsked ≤ currentQuestionIndex` holds at construction and is
preserved by every handler; a matcher flush sets both fields to the same
value `matchedIdx + 1`, and the closing-phrase path (when no gap flush
intervenes) advances `currentQuestionIndex` to the number of questions
without changing `questionsAsked`. -/
theorem claim10_inv :
    (∀ (questions : List Question) (m : ℤ) (hc hn : Bool),
        (initState questions m hc hn).questionsAsked
          ≤ (initState questions m hc hn).currentQuestionIndex) ∧
    (∀ (s : ProcState) (e : Event),
        s.questionsAsked ≤ s.currentQuestionIndex →
        (step s e).questionsAsked ≤ (step s e).currentQuestionIndex) ∧
    (∀ (s : ProcState) (idx : Nat),
        checkQuestionMatch s.questions s.currentQuestionIndex s.agentSpeechAccumulator
            = some idx →
        (checkAccumulatorForQuestion s).questionsAsked = idx + 1 ∧
        (checkAccumulatorForQuestion s).currentQuestionIndex = idx + 1) ∧
    (∀ (s : ProcState) (now : ℤ) (rawText : String),
        (∀ t, s.accumulatorLastUpdate = some t → now - t ≤ ACCUMULATOR_GAP_THRESHOLD) →
        (onAgentSpeech now rawText s).questionsAsked = s.questionsAsked ∧
        (closingKeywords.any
            (fun keyword => containsSubstr (lowerStr (trimStr rawText)) keyword) = true →
          s.currentQuestionIndex < s.questions.length →
          (onAgentSpeech now rawText s).currentQuestionIndex = s.questions.length)) := by
  refine ⟨fun _ _ _ _ => le_refl 0, fun s e hinv => (step_counters s e hinv).2.2,
    fun s idx h => ⟨(checkAcc_flush_match s idx h).1, (checkAcc_flush_match s idx h).2.1⟩,
    fun s now rawText hng => ?_⟩
  have hflush : gapFlush now s = s := by
    cases hu : s.accumulatorLastUpdate with
    | none => exact gapFlush_none now s hu
    | some t => exact gapFlush_no_gap now s t hu (hng t hu)
  rw [onAgentSpeech_eq, hflush]
  constructor
  · rw [closingAdvance_qa, updLast_qa, recordAgentText_qa]
  · intro hk hlt
    have hlt2 : ({ recordAgentText now (trimStr rawText) s with
        lastAgentSpeechTime := some now } : ProcState).currentQuestionIndex
        < ({ recordAgentText now (trimStr rawText) s with
            lastAgentSpeechTime := some now } : ProcState).questions.length := by
      rw [updLast_cqi, updLast_questions, recordAgentText_cqi, recordAgentText_questions]
      exact hlt
    rw [closingAdvance_cqi_of_lt now (trimStr rawText) (lowerStr (trimStr rawText)) _ hk hlt2,
      updLast_questions, recordAgentText_questions]

/-- Concrete state for the C10 witness (the spec's own matcher example). -/
def invWitnessState : ProcState :=
  { initState [⟨"Tell me about your experience with distributed systems", "background"⟩] 8
      true true with
    interviewStartTime := some 0
    agentSpeechAccumulator := "so tell me about your experience with systems"
    accumulatorLastUpdate := some 10 }

/-- Witness for C10: a flush that matches question 0 sets both counters
to 1. -/
theorem claim10_inv_witness :
    (checkAccumulatorForQuestion invWitnessState).questionsAsked = 0 + 1 ∧
    (checkAccumulatorForQuestion invWitnessState).currentQuestionIndex = 0 + 1 :=
  claim10_inv.2.2.1 invWitnessState 0 (by decide)

theorem updLast_sent (u : ProcState) (n : Option ℤ) :
    ({ u with lastAgentSpeechTime := n }).sentEvents = u.sentEvents := rfl

theorem recordAgentText_sent_mono (now : ℤ) (text : String) (s : ProcState)
    (ev : Notification) (h : ev ∈ s.sentEvents) :
    ev ∈ (recordAgentText now text s).sentEvents := by
  unfold recordAgentText sendTranscriptEvent
  dsimp only
  repeat' split
  all_goals simp [h]

/-- C5 counterexample: after the closing phrase the cursor is the question
count (here 1), not the last question index (here 0), so the claim's
"force-advanced to the last question index" fails on this input. -/
theorem claim5_counterexample :
    (onAgentSpeech 2 "Goodbye"
        { initState [⟨"only question", "wrap"⟩] 8 true true with
          interviewStartTime := some 1 }).currentQuestionIndex = 1 ∧
    ([(⟨"only question", "wrap"⟩ : Question)] : List Question).length - 1 = 0 ∧
    ¬ ((onAgentSpeech 2 "Goodbye"
        { initState [⟨"only question", "wrap"⟩] 8 true true with
          interviewStartTime := some 1 }).currentQuestionIndex
      = ([(⟨"only question", "wrap"⟩ : Question)] : List Question).length - 1) := by
  decide

/-- C5 amended: a recognized closing phrase (case-insensitive substring
match) appends the trimmed utterance to `closingPhrasesSeen`, and if the
cursor has not yet passed the last question it is force-advanced to the
question count (one past the last question index), independent of the
matcher; the progress notification for the last question is emitted (shown
here with a configured notifier and an empty buffer, so no gap flush
intervenes). -/
theorem claim5_amended (s : ProcState) (now : ℤ) (rawText : String)
    (hk : closingKeywords.any
        (fun keyword => containsSubstr (lowerStr (trimStr rawText)) keyword) = true) :
    (onAgentSpeech now rawText s).agentClosingPhrases
        = s.agentClosingPhrases ++ [trimStr rawText] ∧
    (s.currentQuestionIndex < s.questions.length →
      (onAgentSpeech now rawText s).currentQuestionIndex = s.questions.length) ∧
    (s.hasNotifier = true → s.agentSpeechAccumulator = "" →
      s.currentQuestionIndex < s.questions.length →
      ∃ q, s.questions[s.questions.length - 1]? = some q ∧
        Notification.progressEvent (s.questions.length - 1) q.category s.expectedQuestions
          ∈ (onAgentSpeech now rawText s).sentEvents) := by
  refine ⟨?_, ?_, ?_⟩
  · rw [onAgentSpeech_eq, closingAdvance_closing _ _ _ _ hk, updLast_closing,
      recordAgentText_closing, gapFlush_closing]
  · intro hlt
    rw [onAgentSpeech_eq]
    have hq3 : ({ recordAgentText now (trimStr rawText) (gapFlush now s) with
        lastAgentSpeechTime := some now } : ProcState).questions = s.questions := by
      rw [updLast_questions, recordAgentText_questions, gapFlush_questions]
    have hc3 : ({ recordAgentText now (trimStr rawText) (gapFlush now s) with
        lastAgentSpeechTime := some now } : ProcState).currentQuestionIndex
        ≤ s.questions.length := by
      rw [updLast_cqi, recordAgentText_cqi]
      exact gapFlush_cqi_le_len now s (le_of_lt hlt)
    by_cases hlt3 : ({ recordAgentText now (trimStr rawText) (gapFlush now s) with
        lastAgentSpeechTime := some now } : ProcState).currentQuestionIndex
        < ({ recordAgentText now (trimStr rawText) (gapFlush now s) with
            lastAgentSpeechTime := some now } : ProcState).questions.length
    · rw [closingAdvance_cqi_of_lt _ _ _ _ hk hlt3, hq3]
    · rw [closingAdvance_cqi_of_ge _ _ _ _ hk hlt3]
      rw [hq3] at hlt3
      omega
  · intro hn hacc hlt
    rw [onAgentSpeech_eq, gapFlush_of_empty now s hacc]
    have hq3 : ({ recordAgentText now (trimStr rawText) s with
        lastAgentSpeechTime := some now } : ProcState).questions = s.questions := by
      rw [updLast_questions, recordAgentText_questions]
    have hlt3 : ({ recordAgentText now (trimStr rawText) s with
        lastAgentSpeechTime := some now } : ProcState).currentQuestionIndex
        < ({ recordAgentText now (trimStr rawText) s with
            lastAgentSpeechTime := some now } : ProcState).questions.length := by
      rw [hq3, updLast_cqi, recordAgentText_cqi]
      exact hlt
    have hn3 : ({ recordAgentText now (trimStr rawText) s with
        lastAgentSpeechTime := some now } : ProcState).hasNotifier = true := by
      rw [updLast_hasNotifier, recordAgentText_hasNotifier]
      exact hn
    obtain ⟨q, hq, hmem⟩ := closingAdvance_sent_progress now (trimStr rawText)
      (lowerStr (trimStr rawText)) _ hk hlt3 hn3
    rw [hq3] at hq
    rw [hq3, updLast_expected, recordAgentText_expected] at hmem
    exact ⟨q, hq, hmem⟩

/-- Concrete state for the C5 amended-claim witness. -/
def closingWitnessState : ProcState :=
  { initState [⟨"tell me about yourself", "intro"⟩, ⟨"any questions for us", "wrap"⟩] 8
      true true with
    interviewStartTime := some 1 }

/-- Witness for C5 amended: the closing phrase reaches question count 2 and
emits the progress event for question index 1. -/
theorem claim5_amended_witness :
    (onAgentSpeech 9 "Thanks for sharing, good luck!" closingWitnessState).agentClosingPhrases
        = closingWitnessState.agentClosingPhrases ++ [trimStr "Thanks for sharing, good luck!"] ∧
    (onAgentSpeech 9 "Thanks for sharing, good luck!" closingWitnessState).currentQuestionIndex
        = closingWitnessState.questions.length ∧
    ∃ q, closingWitnessState.questions[closingWitnessState.questions.length - 1]? = some q ∧
      Notification.progressEvent (closingWitnessState.questions.length - 1) q.category
          closingWitnessState.expectedQuestions
        ∈ (onAgentSpeech 9 "Thanks for sharing, good luck!" closingWitnessState).sentEvents := by
  have h := claim5_amended closingWitnessState 9 "Thanks for sharing, good luck!" (by decide)
  exact ⟨h.1, h.2.1 (by decide), h.2.2 rfl rfl (by decide)⟩

/-- C6: consecutive agent fragments within the 2-second gap threshold are
concatenated onto the buffer; a gap above the threshold first flushes the
old buffer through the matcher (advancing cursor and question count to
`matchedIdx + 1` and emitting a progress notification on a match, changing
nothing on a miss) and clears it before the new fragment is buffered alone. -/
theorem claim6_accumulator (s : ProcState) (now lastT : ℤ) (rawText : String)
    (hu : s.accumulatorLastUpdate = some lastT)
    (hacc : s.agentSpeechAccumulator ≠ "")
    (htext : trimStr rawText ≠ "") :
    (now - lastT ≤ ACCUMULATOR_GAP_THRESHOLD →
      (onAgentSpeech now rawText s).agentSpeechAccumulator
        = s.agentSpeechAccumulator ++ " " ++ trimStr rawText) ∧
    (ACCUMULATOR_GAP_THRESHOLD < now - lastT →
      (onAgentSpeech now rawText s).agentSpeechAccumulator = trimStr rawText ∧
      (closingKeywords.any
          (fun keyword => containsSubstr (lowerStr (trimStr rawText)) keyword) = false →
        (∀ idx,
          checkQuestionMatch s.questions s.currentQuestionIndex s.agentSpeechAccumulator
              = some idx →
          (onAgentSpeech now rawText s).currentQuestionIndex = idx + 1 ∧
          (onAgentSpeech now rawText s).questionsAsked = idx + 1 ∧
          (s.hasNotifier = true →
            ∃ q, s.questions[idx]? = some q ∧
              Notification.progressEvent idx q.category s.expectedQuestions
                ∈ (onAgentSpeech now rawText s).sentEvents)) ∧
        (checkQuestionMatch s.questions s.currentQuestionIndex s.agentSpeechAccumulator
              = none →
          (onAgentSpeech now rawText s).currentQuestionIndex = s.currentQuestionIndex ∧
          (onAgentSpeech now rawText s).questionsAsked = s.questionsAsked))) := by
  constructor
  · intro hle
    rw [onAgentSpeech_eq, gapFlush_no_gap now s lastT hu hle, closingAdvance_acc, updLast_acc,
      recordAgentText_acc _ _ _ htext, if_neg hacc]
  · intro hgt
    rw [onAgentSpeech_eq, gapFlush_gap now s lastT hu hgt]
    refine ⟨?_, fun hnc => ⟨fun idx hm => ?_, fun hm => ?_⟩⟩
    · rw [closingAdvance_acc, updLast_acc, recordAgentText_acc _ _ _ htext,
        if_pos (checkAcc_acc s hacc)]
    · have hfm := checkAcc_flush_match s idx hm
      rw [closingAdvance_not _ _ _ _ hnc, updLast_cqi, updLast_qa, recordAgentText_cqi,
        recordAgentText_qa]
      refine ⟨hfm.2.1, hfm.1, fun hn => ?_⟩
      obtain ⟨q, hq, hmem⟩ := hfm.2.2 hn
      refine ⟨q, hq, ?_⟩
      rw [updLast_sent]
      exact recordAgentText_sent_mono _ _ _ _ hmem
    · have hfn := checkAcc_flush_none s hm
      rw [closingAdvance_not _ _ _ _ hnc, updLast_cqi, updLast_qa, recordAgentText_cqi,
        recordAgentText_qa]
      exact ⟨hfn.1, hfn.2.1⟩

/-- Concrete state for the C6 witness. -/
def accumulatorWitnessState : ProcState :=
  { initState [⟨"tell me about your experience with distributed systems", "background"⟩] 8
      true true with
    interviewStartTime := some 0
    agentSpeechAccumulator := "so tell me"
    accumulatorLastUpdate := some 10 }

/-- Witness for C6: a fragment 1 second after the last concatenates; from a
state 3 seconds later the buffer is flushed and replaced by the new
fragment. -/
theorem claim6_accumulator_witness :
    (onAgentSpeech 11 "about your experience" accumulatorWitnessState).agentSpeechAccumulator
        = accumulatorWitnessState.agentSpeechAccumulator ++ " " ++ trimStr "about your experience" ∧
    (onAgentSpeech 13 "next topic now" accumulatorWitnessState).agentSpeechAccumulator
        = trimStr "next topic now" := by
  constructor
  · exact (claim6_accumulator accumulatorWitnessState 11 10 "about your experience" rfl
      (by decide) (by decide)).1 (by decide)
  · exact ((claim6_accumulator accumulatorWitnessState 13 10 "next topic now" rfl
      (by decide) (by decide)).2 (by decide)).1

/-- C7: any user utterance containing "goodbye" or "bye" (case-insensitive
substring) marks the conversation complete immediately, regardless of the
evaluator's closing-phrase/question-count/duration criteria (the state `s`
is arbitrary), with the user-goodbye reason when the latch was unset. -/
theorem claim7_user_goodbye (s : ProcState) (now : ℤ) (rawText : String)
    (hbye : (containsSubstr (lowerStr (trimStr rawText)) "goodbye"
        || containsSubstr (lowerStr (trimStr rawText)) "bye") = true) :
    (onUserSpeech now rawText s).isComplete = true ∧
    (s.isComplete = false →
      (onUserSpeech now rawText s).completionReason = some CompletionReason.userGoodbye) := by
  unfold onUserSpeech
  dsimp only
  rw [if_pos hbye]
  refine ⟨markComplete_isComplete _ _, fun hic => ?_⟩
  split
  · refine (markComplete_callback _ _ ?_).2
    rw [sendTranscript_isComplete]
    show (checkAccumulatorForQuestion s).isComplete = false
    rw [checkAcc_isComplete]
    exact hic
  · refine (markComplete_callback _ _ ?_).2
    rw [checkAcc_isComplete]
    exact hic

/-- Witness for C7: "bye for now" completes immediately from a fresh state. -/
theorem claim7_user_goodbye_witness :
    (onUserSpeech 30 "bye for now"
        { initState [⟨"q", "c"⟩] 8 true true with interviewStartTime := some 0 }).isComplete
      = true :=
  (claim7_user_goodbye _ 30 "bye for now" (by decide)).1

/-- C8: `wait_for_completion` leaves the state alone when the latch was set
in time; on timeout it forces the transition itself, setting the latch with
a timeout reason and firing the callback when it had not already fired. -/
theorem claim8_wait (s : ProcState) :
    waitForCompletion false s = s ∧
    (waitForCompletion true s).isComplete = true ∧
    (s.isComplete = true → waitForCompletion true s = s) ∧
    (s.isComplete = false →
      (waitForCompletion true s).completionReason = some CompletionReason.timeout ∧
      (s.hasCallback = true →
        (waitForCompletion true s).callbackCalls = s.callbackCalls + 1)) := by
  have hw : waitForCompletion true s = markComplete CompletionReason.timeout s := by
    unfold waitForCompletion
    rw [if_pos rfl]
  have hf : waitForCompletion false s = s := by
    unfold waitForCompletion
    rw [if_neg Bool.false_ne_true]
  refine ⟨hf, ?_, fun hic => ?_, fun hic => ⟨?_, fun hcb => ?_⟩⟩
  · rw [hw]
    exact markComplete_isComplete _ _
  · rw [hw]
    exact markComplete_of_complete _ _ hic
  · rw [hw]
    exact (markComplete_callback _ _ hic).2
  · rw [hw, (markComplete_callback _ _ hic).1, if_pos hcb]

/-- Witness for C8: a timed-out wait on a fresh state records the timeout
reason. -/
theorem claim8_wait_witness :
    (waitForCompletion true (initState [] 8 true true)).completionReason
      = some CompletionReason.timeout :=
  ((claim8_wait (initState [] 8 true true)).2.2.2 rfl).1

/-! ### Short-text lemmas for the degenerate-input claim -/

theorem hasPrefixCL_le : ∀ (n h : List Char), hasPrefixCL n h = true → n.length ≤ h.length := by
  intro n
  induction n with
  | nil => intro h _; simp
  | cons a as ih =>
    intro h hp
    cases h with
    | nil => exact absurd hp (by simp [hasPrefixCL])
    | cons b bs =>
      have : hasPrefixCL as bs = true := by
        have := hp
        unfold hasPrefixCL at this
        exact (Bool.and_eq_true _ _ |>.mp this).2
      simpa using ih bs this

theorem hasSubstrCL_short (n : List Char) :
    ∀ (h : List Char), h.length < n.length → hasSubstrCL n h = false := by
  intro h
  induction h with
  | nil =>
    intro hlt
    cases n with
    | nil => simp at hlt
    | cons a as => rfl
  | cons b bs ih =>
    intro hlt
    show (hasPrefixCL n (b :: bs) || hasSubstrCL n bs) = false
    have h1 : hasPrefixCL n (b :: bs) = false := by
      cases hp : hasPrefixCL n (b :: bs) with
      | false => rfl
      | true => exact absurd (hasPrefixCL_le n (b :: bs) hp) (by omega)
    have h2 : hasSubstrCL n bs = false := ih (by simp at hlt ⊢; omega)
    rw [h1, h2]
    rfl

theorem lowerStr_length (s : String) : (lowerStr s).data.length = s.data.length := by
  unfold lowerStr
  exact List.length_map _ _

/-- C9 counterexample: a lone "?" from the agent IS appended to the
transcript and fed to the accumulator, refuting the claim that
punctuation-only text is skipped for every speech event. -/
theorem claim9_counterexample :
    (onAgentSpeech 5 "?"
        { initState [] 8 true true with interviewStartTime := some 0 }).transcript
      = [⟨"agent", "?", 5⟩] ∧
    (onAgentSpeech 5 "?"
        { initState [] 8 true true with interviewStartTime := some 0 }).agentSpeechAccumulator
      = "?" ∧
    (trimStr "?").length = 1 := by
  decide

/-- C9 amended: user speech whose trimmed text has length at most one is
skipped entirely (no transcript entry, no broadcast, no completion side
effect — with an empty buffer the handler is the identity); agent speech is
skipped only when the trimmed text is empty, in which case only
`lastAgentSpeechTime` is updated.  A punctuation-only agent fragment is NOT
skipped (see the counterexample). -/
theorem claim9_amended (s : ProcState) (now : ℤ) (rawText : String)
    (hacc : s.agentSpeechAccumulator = "") :
    ((trimStr rawText).length ≤ 1 → onUserSpeech now rawText s = s) ∧
    (trimStr rawText = "" →
      onAgentSpeech now rawText s = { s with lastAgentSpeechTime := some now }) := by
  constructor
  · intro hlen
    have hdata : (trimStr rawText).data.length ≤ 1 := hlen
    have hlow : (lowerStr (trimStr rawText)).data.length ≤ 1 := by
      rw [lowerStr_length]
      exact hdata
    have hbye : containsSubstr (lowerStr (trimStr rawText)) "bye" = false := by
      apply hasSubstrCL_short
      have h3 : ("bye" : String).data.length = 3 := by decide
      rw [h3]
      omega
    have hgoodbye : containsSubstr (lowerStr (trimStr rawText)) "goodbye" = false := by
      apply hasSubstrCL_short
      have h7 : ("goodbye" : String).data.length = 7 := by decide
      rw [h7]
      omega
    unfold onUserSpeech
    dsimp only
    rw [checkAcc_of_empty s hacc]
    rw [if_neg (by simp [hbye, hgoodbye])]
    rw [if_neg (fun hcond => absurd hcond.2 (by omega))]
  · intro hempty
    rw [onAgentSpeech_eq, hempty, gapFlush_of_empty now s hacc, recordAgentText_of_empty]
    exact closingAdvance_not _ _ _ _ (by decide)

/-- Witness for C9 amended: a lone "?" from the user leaves the state
untouched. -/
theorem claim9_amended_witness :
    onUserSpeech 9 "?" { initState [] 8 true true with interviewStartTime := some 0 }
      = { initState [] 8 true true with interviewStartTime := some 0 } :=
  (claim9_amended _ 9 "?" rfl).1 (by decide)
